import Mathlib

/-!
Verification of the offline-first synchronization core of the moneyway
(Maniway Pass Maker) repository.

The development shallowly embeds, from the TypeScript source:
  * the `Pass` record and the server store (`src/lib/models/pass.ts`,
    modelled as a list of passes keyed by `passId`);
  * the server reconciliation handler `POST /api/sync`
    (`src/app/api/sync/route.ts`): `processUpdatePass`,
    `processUpdateStatus`, and the batch loop of `POST`;
  * the visitor-update endpoint `PUT /api/passes/update`
    (`src/app/api/passes/update/route.ts`);
  * the client pending-operation queue (`src/lib/dexie.ts`) and the
    sync engine (`src/lib/sync.ts`): `getPendingOperations`,
    `removePendingOperation`, `updatePendingOperationRetryCount`,
    `syncPendingOperations`, `triggerManualSync`;
  * the dashboard's manual-sync click handler (`handleManualSync`).

Timestamps (`Date` values) are modelled as natural numbers
(milliseconds since the epoch); `Date` comparison in the source is
numeric comparison of those values.  Network and database effects are
made explicit: the Mongo collection is a `List Pass` threaded through
the handlers, and the client's network boundary is an oracle
`net : PendingOp → Option String` (`none` = 2xx response, `some msg` =
the error message of the thrown exception).  Each drain additionally
returns observation traces (`attempts`, `delays`) recording which
operation ids were dispatched and which backoff waits were performed;
these traces instrument the embedding and carry no program state.
-/

/-- Pass status, the string union `'unused' | 'used'` of the source. -/
inductive Status where
  | unused : Status
  | used : Status
deriving DecidableEq, Repr

/-- A pass record (`src/lib/models/pass.ts`).  Fields not touched by any
of the synchronization code paths under verification (`eventId`,
`qrUrl`, `qrDataUrl`, Mongo's `_id`) are omitted; `age` is transported
as a string by every caller and is modelled as `Option String` like the
other optional visitor fields.  `Option.none` models an absent (or
`null`/`undefined`) field. -/
structure Pass where
  passId : String
  status : Status
  name : Option String
  mobile : Option String
  city : Option String
  age : Option String
  createdAt : Nat
  updatedAt : Nat
  usedAt : Option Nat
deriving DecidableEq, Repr

/-- The visitor fields of an `update-pass` payload.  At the only enqueue
site (the pass detail page) the payload is the form data
`{ name, mobile, city, age }`; a `passId` key inside the payload is
stripped by the server handler's destructuring and therefore does not
appear here. -/
structure VisitorFields where
  name : Option String
  mobile : Option String
  city : Option String
  age : Option String
deriving DecidableEq, Repr

/-- Mongo `findOne({ passId })` on the passes collection: first record with
the given `passId` (the collection keeps `passId` unique). -/
def findPass (db : List Pass) (pid : String) : Option Pass :=
  db.find? (fun p => p.passId == pid)

/-- Mongo `updateOne({ passId }, { $set ... })`: rewrite the first record
matching `passId` with `f`, leaving the rest of the collection
unchanged. -/
def updateFirst : List Pass → String → (Pass → Pass) → List Pass
  | [], _, _ => []
  | p :: rest, pid, f =>
      if p.passId == pid then f p :: rest else p :: updateFirst rest pid f

/-- JavaScript object-spread semantics of `$set { ...updateData }`: a
key present in the payload overwrites the stored field, an absent key
leaves it unchanged. -/
def setIfPresent (incoming old : Option String) : Option String :=
  match incoming with
  | some v => some v
  | none => old

/-- The fields of an `update-pass` sync-operation envelope that
`processUpdatePass` reads: `op.passId`, `op.payload`, `op.createdAt`
(and `op.id` for error reporting). -/
structure UpdatePassOp where
  id : Nat
  passId : String
  payload : VisitorFields
  createdAt : Nat
deriving DecidableEq, Repr

/-- The fields of an `update-status` sync-operation envelope that
`processUpdateStatus` reads: `op.passId`, `op.payload.status`,
`op.createdAt` (and `op.id`).  Every enqueue site of the repository
sets `payload.status`, so the status is carried directly. -/
structure UpdateStatusOp where
  id : Nat
  passId : String
  status : Status
  createdAt : Nat
deriving DecidableEq, Repr

/-- The record produced by the apply branch of `processUpdatePass`:
`$set { ...updateData, updatedAt: opTimestamp }`. -/
def applyVisitorUpdate (p : Pass) (f : VisitorFields) (ts : Nat) : Pass :=
  { p with
    name := setIfPresent f.name p.name
    mobile := setIfPresent f.mobile p.mobile
    city := setIfPresent f.city p.city
    age := setIfPresent f.age p.age
    updatedAt := ts }

/-- Server handler `processUpdatePass` of `src/app/api/sync/route.ts`
(lines 87-121).  Fetches the current pass (error if absent), skips when
the server's `updatedAt` is strictly newer than the operation's
`createdAt`, and otherwise `$set`s the payload fields together with
`updatedAt := createdAt`.  The post-update `matchedCount` check of the
source cannot fire once `findOne` succeeded (the same record matches)
and is not modelled. -/
def processUpdatePass (db : List Pass) (op : UpdatePassOp) :
    Except String (List Pass) :=
  match findPass db op.passId with
  | none => Except.error ("Pass " ++ op.passId ++ " not found")
  | some currentPass =>
      if currentPass.updatedAt > op.createdAt then
        Except.ok db
      else
        Except.ok (updateFirst db op.passId
          (fun p => applyVisitorUpdate p op.payload op.createdAt))

/-- The record produced by the apply branch of `processUpdateStatus`:
`status`, `updatedAt := opTimestamp`, and `usedAt := opTimestamp` when
the new status is `used`, `usedAt := null` otherwise. -/
def applyStatusUpdate (p : Pass) (st : Status) (ts : Nat) : Pass :=
  { p with
    status := st
    updatedAt := ts
    usedAt := if st = Status.used then some ts else none }

/-- Server handler `processUpdateStatus` of `src/app/api/sync/route.ts`
(lines 129-168).  Fetches the current pass (error if absent), skips
when the server's `updatedAt` is strictly newer, and otherwise applies
the status change.  Note that the source performs no check of the
current `status`: an already-used pass is overwritten like any other.
As in `processUpdatePass`, the unreachable post-update `matchedCount`
check is not modelled. -/
def processUpdateStatus (db : List Pass) (op : UpdateStatusOp) :
    Except String (List Pass) :=
  match findPass db op.passId with
  | none => Except.error ("Pass " ++ op.passId ++ " not found")
  | some currentPass =>
      if currentPass.updatedAt > op.createdAt then
        Except.ok db
      else
        Except.ok (updateFirst db op.passId
          (fun p => applyStatusUpdate p op.status op.createdAt))

/-- One operation envelope of a batch sync request, tagged by its
`type` discriminator. -/
inductive SyncOperation where
  | updatePass (op : UpdatePassOp) : SyncOperation
  | updateStatus (op : UpdateStatusOp) : SyncOperation
  | createPass (id : Nat) : SyncOperation
  | createEvent (id : Nat) : SyncOperation
deriving DecidableEq, Repr

/-- The client-local `id` of a batch operation, used in error reports. -/
def SyncOperation.opId : SyncOperation → Nat
  | .updatePass o => o.id
  | .updateStatus o => o.id
  | .createPass i => i
  | .createEvent i => i

/-- The `switch (op.type)` dispatch of the batch loop.  `create-pass`
and `create-event` are rejected by the reconciliation path with the
errors thrown by `processCreatePass` / `processCreateEvent`. -/
def processOp (db : List Pass) : SyncOperation → Except String (List Pass)
  | .updatePass o => processUpdatePass db o
  | .updateStatus o => processUpdateStatus db o
  | .createPass _ =>
      Except.error "Create pass operations should use /api/passes/create-batch"
  | .createEvent _ =>
      Except.error "Create event operations should use /api/events/create"

/-- The response body of `POST /api/sync`:
`{ success, processed, failed, errors: [{operationId, error}] }`. -/
structure BatchResults where
  success : Bool
  processed : Nat
  failed : Nat
  errors : List (Nat × String)
deriving DecidableEq, Repr

/-- One iteration of the `for (const op of operations)` loop of the
batch handler: on success bump `processed`, on a thrown error bump
`failed` and append `{ operationId: op.id, error }`. -/
def batchStep (acc : BatchResults × List Pass) (op : SyncOperation) :
    BatchResults × List Pass :=
  match processOp acc.2 op with
  | Except.ok db2 => ({ acc.1 with processed := acc.1.processed + 1 }, db2)
  | Except.error msg =>
      ({ acc.1 with
          failed := acc.1.failed + 1
          errors := acc.1.errors ++ [(op.opId, msg)] }, acc.2)

/-- The final `success = (failed === 0)` assignment of the batch
handler. -/
def finalizeBatch (r : BatchResults) : BatchResults :=
  { r with success := decide (r.failed = 0) }

/-- The `POST` handler of `/api/sync` (lines 20-85): process the batch
sequentially, isolating each operation's failure, then set
`success := failed === 0`.  Returns the response together with the
final state of the passes collection. -/
def syncPOST (db : List Pass) (ops : List SyncOperation) :
    BatchResults × List Pass :=
  (finalizeBatch (ops.foldl batchStep (⟨true, 0, 0, []⟩, db)).1,
   (ops.foldl batchStep (⟨true, 0, 0, []⟩, db)).2)

/-- The per-operation success/failure outcomes of a sequential batch
run, threading the evolving collection exactly as the batch loop
does. -/
def opOutcomes : List Pass → List SyncOperation → List Bool
  | _, [] => []
  | db, op :: rest =>
      match processOp db op with
      | Except.ok db2 => true :: opOutcomes db2 rest
      | Except.error _ => false :: opOutcomes db rest

/-- The request body `{ passId, name, mobile, city, age }` of
`PUT /api/passes/update`.  A key absent from the JSON body is `none`;
the handler's destructuring turns it into `undefined`, which the
`$set` then stores (erasing the field). -/
structure UpdateRequest where
  passId : String
  name : Option String
  mobile : Option String
  city : Option String
  age : Option String
deriving DecidableEq, Repr

/-- The pass projection returned by the 200 response of
`PUT /api/passes/update` (its JSON omits `createdAt` and `usedAt`). -/
structure PassView where
  passId : String
  status : Status
  name : Option String
  mobile : Option String
  city : Option String
  age : Option String
  updatedAt : Nat
deriving DecidableEq, Repr

/-- Project a stored pass to the response shape of the PUT handler. -/
def passView (p : Pass) : PassView :=
  ⟨p.passId, p.status, p.name, p.mobile, p.city, p.age, p.updatedAt⟩

/-- Responses of `PUT /api/passes/update`: 400, 404, or 200 with the
updated record. -/
inductive PutResponse where
  | badRequest (error : String) : PutResponse
  | notFound (error : String) : PutResponse
  | ok (pass : PassView) : PutResponse
deriving DecidableEq, Repr

/-- The `$set` applied by the PUT handler of `/api/passes/update`: all
four visitor fields are overwritten with the request body's values
(an absent field erases the stored one) and `updatedAt` is set to the
server clock. -/
def putApply (req : UpdateRequest) (now : Nat) (p : Pass) : Pass :=
  { p with
    name := req.name
    mobile := req.mobile
    city := req.city
    age := req.age
    updatedAt := now }

/-- The `PUT` handler of `/api/passes/update`
(`src/app/api/passes/update/route.ts`, lines 14-93).  Rejects a falsy
`passId` (modelled by the empty string), 404s when the pass does not
exist, and otherwise `$set`s all four visitor fields unconditionally
with the request's values (`undefined` erases) together with
`updatedAt := now`, where `now` is the server clock at the request
(`new Date()`).  No timestamp comparison is performed.  The handler
then re-fetches the record for the response; the re-fetch cannot miss
once the first `findOne` succeeded, and its impossible branch is
modelled as the 404 response.  Returns the response and the updated
collection. -/
def putUpdatePass (db : List Pass) (now : Nat) (req : UpdateRequest) :
    PutResponse × List Pass :=
  if req.passId = "" then
    (PutResponse.badRequest "Pass ID is required", db)
  else
    match findPass db req.passId with
    | none => (PutResponse.notFound "Pass not found", db)
    | some _ =>
        match findPass (updateFirst db req.passId (putApply req now))
            req.passId with
        | some updated =>
            (PutResponse.ok (passView updated),
             updateFirst db req.passId (putApply req now))
        | none =>
            (PutResponse.notFound "Pass not found",
             updateFirst db req.passId (putApply req now))

/-- The `type` discriminator of a queued client operation
(`src/lib/dexie.ts`). -/
inductive SyncOpType where
  | createPass : SyncOpType
  | updatePass : SyncOpType
  | createEvent : SyncOpType
  | updateStatus : SyncOpType
deriving DecidableEq, Repr

/-- The payload (`any` in the source) of a queued client operation,
as a tagged union of the shapes actually enqueued: visitor form data
for `update-pass`, a status for `update-status`, and an opaque body for
the creation types. -/
inductive OpPayload where
  | visitor (fields : VisitorFields) : OpPayload
  | statusChange (status : Status) : OpPayload
  | raw : OpPayload
deriving DecidableEq, Repr

/-- A `PendingOperation` of the client queue (`src/lib/dexie.ts`,
lines 4-12): auto-increment primary key `id` (the enqueue sequence
number), `type`, target `passId`, payload, the logical timestamp
`createdAt` captured when the user action occurred, and
`retryCount`. -/
structure PendingOp where
  id : Nat
  type : SyncOpType
  passId : String
  payload : OpPayload
  createdAt : Nat
  retryCount : Nat
deriving DecidableEq, Repr

/-- Queue ordering used by Dexie for `orderBy('createdAt')`: ascending
by the index key `createdAt`, equal keys ordered by the primary key
`id` (the enqueue sequence number). -/
def opKeyLE (a b : PendingOp) : Prop :=
  a.createdAt < b.createdAt ∨ (a.createdAt = b.createdAt ∧ a.id ≤ b.id)

instance : DecidableRel opKeyLE := fun a b =>
  decidable_of_iff
    (a.createdAt < b.createdAt ∨ (a.createdAt = b.createdAt ∧ a.id ≤ b.id))
    Iff.rfl

instance : IsTotal PendingOp opKeyLE :=
  ⟨fun a b => by unfold opKeyLE; omega⟩

instance : IsTrans PendingOp opKeyLE :=
  ⟨fun a b c => by unfold opKeyLE; omega⟩

/-- Modelled from Dexie's documented `orderBy` contract:
`db.pendingOps.orderBy('createdAt').toArray()` returns the table's
rows sorted ascending by the `createdAt` index, rows with equal keys
ordered by primary key.  The table contents are the list `q` (in
insertion order); the sort is realised by insertion sort on
`opKeyLE`.  This is `getPendingOperations` of `src/lib/dexie.ts`
(lines 73-75). -/
def getPendingOperations (q : List PendingOp) : List PendingOp :=
  List.insertionSort opKeyLE q

/-- Dexie `db.pendingOps.delete(id)` (`removePendingOperation`,
`src/lib/dexie.ts` lines 81-83): delete the row with primary key
`id`; idempotent. -/
def removePendingOperation (q : List PendingOp) (i : Nat) : List PendingOp :=
  q.filter (fun o => o.id != i)

/-- Dexie `db.pendingOps.update(id, { retryCount })`
(`updatePendingOperationRetryCount`, `src/lib/dexie.ts` lines 85-87):
rewrite the `retryCount` of the row with primary key `id`. -/
def updatePendingOperationRetryCount (q : List PendingOp) (i rc : Nat) :
    List PendingOp :=
  q.map (fun o => if o.id == i then { o with retryCount := rc } else o)

/-- Lookup of the queue row with primary key `i` (observation helper
for stating which entry, if any, the store holds under a key). -/
def lookupOp (q : List PendingOp) (i : Nat) : Option PendingOp :=
  q.find? (fun o => o.id == i)

/-- One entry of `SyncResult.errors` (`src/lib/sync.ts`, lines
15-19). -/
structure SyncError where
  operationId : Nat
  error : String
  retryable : Bool
deriving DecidableEq, Repr

/-- The `SyncResult` summary of one drain (`src/lib/sync.ts`, lines
8-13). -/
structure SyncResult where
  success : Bool
  synced : Nat
  failed : Nat
  errors : List SyncError
deriving DecidableEq, Repr

/-- Constant `MAX_RETRIES` of `src/lib/sync.ts` (line 21). -/
def MAX_RETRIES : Nat := 3

/-- Constant `RETRY_DELAY_MS`, the base delay for exponential backoff
(`src/lib/sync.ts`, line 22). -/
def RETRY_DELAY_MS : Nat := 1000

/-- The state of one drain of the sync engine: the device's queue
table, the accumulating `SyncResult`, and two observation traces:
`delays` records every backoff wait performed (in ms, in order) and
`attempts` records the id of every operation dispatched to the
network. -/
structure DrainOutcome where
  result : SyncResult
  queue : List PendingOp
  delays : List Nat
  attempts : List Nat
deriving DecidableEq, Repr

/-- One iteration of the `for (const op of pendingOps)` loop of
`syncPendingOperations` (`src/lib/sync.ts`, lines 45-80).  The network
oracle `net` stands for `processSingleOperation`: `none` models a
successful round trip, `some msg` a thrown error with message `msg`.
On success the operation is removed from the queue and `synced`
bumped.  On failure, `retryable := op.retryCount < MAX_RETRIES` is
recorded in the error list; if retryable, the stored `retryCount` is
incremented and a backoff wait of `RETRY_DELAY_MS * 2 ^ op.retryCount`
is performed before proceeding (the operation stays queued and is not
re-dispatched within this drain); otherwise the operation is removed
from the queue. -/
def syncStep (net : PendingOp → Option String) (acc : DrainOutcome)
    (op : PendingOp) : DrainOutcome :=
  match net op with
  | none =>
      { acc with
        queue := removePendingOperation acc.queue op.id
        result := { acc.result with synced := acc.result.synced + 1 }
        attempts := acc.attempts ++ [op.id] }
  | some msg =>
      let res :=
        { acc.result with
          failed := acc.result.failed + 1
          errors := acc.result.errors ++
            [⟨op.id, msg, decide (op.retryCount < MAX_RETRIES)⟩] }
      if op.retryCount < MAX_RETRIES then
        { queue := updatePendingOperationRetryCount acc.queue op.id
            (op.retryCount + 1)
          result := res
          delays := acc.delays ++ [RETRY_DELAY_MS * 2 ^ op.retryCount]
          attempts := acc.attempts ++ [op.id] }
      else
        { queue := removePendingOperation acc.queue op.id
          result := res
          delays := acc.delays
          attempts := acc.attempts ++ [op.id] }

/-- The initial drain state: `result = { success: true, synced: 0,
failed: 0, errors: [] }`, the untouched queue, and empty traces. -/
def drainInit (q : List PendingOp) : DrainOutcome :=
  ⟨⟨true, 0, 0, []⟩, q, [], []⟩

/-- The final `result.success = (result.failed === 0)` assignment
performed after the processing loop of `syncPendingOperations`. -/
def finalizeDrain (d : DrainOutcome) : DrainOutcome :=
  { d with result := { d.result with success := decide (d.result.failed = 0) } }

/-- Function `syncPendingOperations` of `src/lib/sync.ts` (lines 27-92): read
the pending operations in chronological order, return immediately when
there are none, otherwise process them sequentially and finally set
`success := failed === 0`. -/
def syncPendingOperations (net : PendingOp → Option String)
    (q : List PendingOp) : DrainOutcome :=
  if (getPendingOperations q).isEmpty then drainInit q
  else
    finalizeDrain ((getPendingOperations q).foldl (syncStep net) (drainInit q))

/-- Function `triggerManualSync` of `src/lib/sync.ts` (lines 197-200): it
delegates to `syncPendingOperations` unconditionally. -/
def triggerManualSync (net : PendingOp → Option String)
    (q : List PendingOp) : DrainOutcome :=
  syncPendingOperations net q

/-- The queue state after `n` successive drains against the same
network oracle. -/
def iterateDrain (net : PendingOp → Option String) (q : List PendingOp) :
    Nat → List PendingOp
  | 0 => q
  | n + 1 => (syncPendingOperations net (iterateDrain net q n)).queue

/-- Outcome of a click on the dashboard's Sync Now button: either a
status message shown without starting a sync, or the `SyncResult` of
the drain. -/
inductive ManualSyncOutcome where
  | message (text : String) : ManualSyncOutcome
  | report (result : SyncResult) : ManualSyncOutcome
deriving DecidableEq, Repr

/-- The dashboard's `handleManualSync` click handler (dashboard page
component): when the connectivity monitor reports the device offline
it fails fast with the message "Cannot sync while offline"; when the
pending-operation count is zero it reports "No pending operations to
sync"; otherwise it runs `triggerManualSync`.  The second component is
the `attempts` trace of network dispatches performed by the call
(empty when no sync was started). -/
def handleManualSync (net : PendingOp → Option String) (offline : Bool)
    (q : List PendingOp) : ManualSyncOutcome × List Nat :=
  if offline then
    (ManualSyncOutcome.message "Cannot sync while offline", [])
  else if q.length = 0 then
    (ManualSyncOutcome.message "No pending operations to sync", [])
  else
    let d := triggerManualSync net q
    (ManualSyncOutcome.report d.result, d.attempts)

/-- The request body built by `syncUpdatePass` (`src/lib/sync.ts`,
lines 119-135): `JSON.stringify({ passId: op.passId, ...op.payload })`.
The spread contributes the visitor fields when the payload is form
data and nothing otherwise; the operation's `createdAt` is not part of
the body. -/
def syncUpdatePassRequest (op : PendingOp) : UpdateRequest :=
  match op.payload with
  | OpPayload.visitor f => ⟨op.passId, f.name, f.mobile, f.city, f.age⟩
  | _ => ⟨op.passId, none, none, none, none⟩

/-- The network round trip performed by the sync engine for an
`update-pass` operation: `syncUpdatePass` sends the request to
`PUT /api/passes/update` against the server collection `db` (with
server clock `now`) and throws `Error(data.error)` on a non-2xx
response.  `none` models the successful return. -/
def updatePassNet (db : List Pass) (now : Nat) (op : PendingOp) :
    Option String :=
  match (putUpdatePass db now (syncUpdatePassRequest op)).1 with
  | PutResponse.ok _ => none
  | PutResponse.badRequest e => some e
  | PutResponse.notFound e => some e

/-- The client-local ids of the operations that fail during a
sequential batch run, in processing order (mirrors the error entries
pushed by the batch loop). -/
def failedIds : List Pass → List SyncOperation → List Nat
  | _, [] => []
  | db, op :: rest =>
      match processOp db op with
      | Except.ok db2 => failedIds db2 rest
      | Except.error _ => op.opId :: failedIds db rest

/-- Fixture: a pass that has already been used (checked in at time 10). -/
def fxUsedPass : Pass :=
  ⟨"VIS-0001", Status.used, some "Asha", some "9000000000", some "Pune",
    some "30", 5, 10, some 10⟩

/-- Fixture: a later `update-status → used` operation against
`fxUsedPass` (a duplicate check-in attempt). -/
def fxDupOp : UpdateStatusOp := ⟨7, "VIS-0001", Status.used, 20⟩

/-- Fixture: a pass whose server state (updatedAt 100) is strictly
newer than the stale queued operation `fxStaleOp` (createdAt 50). -/
def fxStalePass : Pass :=
  ⟨"VIS-0002", Status.unused, some "Old", none, none, none, 40, 100, none⟩

/-- Fixture: a stale queued `update-pass` operation against
`fxStalePass`. -/
def fxStaleOp : PendingOp :=
  ⟨1, SyncOpType.updatePass, "VIS-0002",
    OpPayload.visitor ⟨some "New", none, none, none⟩, 50, 0⟩

/-- Fixture: a network oracle on which every dispatch fails with a
transient error. -/
def fxNetFail : PendingOp → Option String := fun _ => some "Network error"

/-- Fixture: a queued operation that will fail on every attempt. -/
def fxRetryOp : PendingOp :=
  ⟨1, SyncOpType.updateStatus, "VIS-0003",
    OpPayload.statusChange Status.used, 60, 0⟩

/-- Fixture: a queued `update-pass` operation whose target record does
not exist on the server. -/
def fxOrphanOp : PendingOp :=
  ⟨2, SyncOpType.updatePass, "VIS-0404",
    OpPayload.visitor ⟨some "Lost", none, none, none⟩, 70, 0⟩

/-- Fixture: an untouched pass used by the witnesses. -/
def fxPlainPass : Pass :=
  ⟨"VIS-0005", Status.unused, none, none, none, none, 10, 20, none⟩

/-- Fixture: an `update-pass` envelope newer than `fxPlainPass`. -/
def fxUpdOp : UpdatePassOp :=
  ⟨3, "VIS-0005", ⟨some "Mia", none, some "Goa", none⟩, 30⟩

/-- Fixture: an `update-status` envelope newer than `fxPlainPass`. -/
def fxStatOp : UpdateStatusOp := ⟨4, "VIS-0005", Status.used, 30⟩

/-- Fixture: a three-operation batch in which exactly the middle
operation targets a nonexistent record. -/
def fxBatch : List SyncOperation :=
  [SyncOperation.updateStatus ⟨11, "VIS-0005", Status.used, 25⟩,
   SyncOperation.updatePass ⟨12, "VIS-0404", ⟨some "X", none, none, none⟩, 26⟩,
   SyncOperation.updatePass ⟨13, "VIS-0005", ⟨some "Y", none, none, none⟩, 27⟩]

/-- Fixture: a stored pass with visitor data that a partial PUT request
would erase. -/
def fxKeepPass : Pass :=
  ⟨"VIS-0006", Status.unused, some "Keep", some "111", some "Pune",
    some "44", 10, 20, none⟩

/-- Fixture: a PUT request for `fxKeepPass` that carries only `mobile`
(the other visitor fields are absent from the body). -/
def fxPartialReq : UpdateRequest := ⟨"VIS-0006", none, some "123", none, none⟩

theorem findPass_updateFirst (db : List Pass) (pid : String)
    (f : Pass → Pass) (hf : ∀ p, (f p).passId = p.passId) :
    findPass (updateFirst db pid f) pid = (findPass db pid).map f := by
  induction db with
  | nil => rfl
  | cons p rest ih =>
      by_cases h : p.passId = pid
      · simp [updateFirst, findPass, h, hf]
      · simp only [updateFirst, findPass] at *
        rw [if_neg (by simp [h])]
        rw [List.find?_cons_of_neg _ (by simp [h]),
          List.find?_cons_of_neg _ (by simp [h, hf])]
        exact ih

theorem lookupOp_remove_ne (q : List PendingOp) (i j : Nat) (h : j ≠ i) :
    lookupOp (removePendingOperation q j) i = lookupOp q i := by
  induction q with
  | nil => rfl
  | cons o rest ih =>
      by_cases ho : o.id = j
      · have hoi : o.id ≠ i := by omega
        simp only [removePendingOperation, lookupOp] at *
        rw [List.filter_cons_of_neg (by simp [ho]),
          List.find?_cons_of_neg _ (by simp [hoi])]
        exact ih
      · simp only [removePendingOperation, lookupOp] at *
        rw [List.filter_cons_of_pos (by simp [ho])]
        by_cases hoi : o.id = i
        · rw [List.find?_cons_of_pos _ (by simp [hoi]),
            List.find?_cons_of_pos _ (by simp [hoi])]
        · rw [List.find?_cons_of_neg _ (by simp [hoi]),
            List.find?_cons_of_neg _ (by simp [hoi])]
          exact ih

theorem lookupOp_remove_self (q : List PendingOp) (j : Nat) :
    lookupOp (removePendingOperation q j) j = none := by
  induction q with
  | nil => rfl
  | cons o rest ih =>
      by_cases ho : o.id = j
      · simp only [removePendingOperation, lookupOp] at *
        rw [List.filter_cons_of_neg (by simp [ho])]
        exact ih
      · simp only [removePendingOperation, lookupOp] at *
        rw [List.filter_cons_of_pos (by simp [ho]),
          List.find?_cons_of_neg _ (by simp [ho])]
        exact ih

theorem lookupOp_update_ne (q : List PendingOp) (i j rc : Nat) (h : j ≠ i) :
    lookupOp (updatePendingOperationRetryCount q j rc) i = lookupOp q i := by
  induction q with
  | nil => rfl
  | cons o rest ih =>
      by_cases ho : o.id = j
      · have hoi : o.id ≠ i := by omega
        simp only [updatePendingOperationRetryCount, lookupOp] at *
        rw [List.map_cons, if_pos (by simp [ho]),
          List.find?_cons_of_neg _ (by simp [hoi]),
          List.find?_cons_of_neg _ (by simp [hoi])]
        exact ih
      · simp only [updatePendingOperationRetryCount, lookupOp] at *
        rw [List.map_cons, if_neg (by simp [ho])]
        by_cases hoi : o.id = i
        · rw [List.find?_cons_of_pos _ (by simp [hoi]),
            List.find?_cons_of_pos _ (by simp [hoi])]
        · rw [List.find?_cons_of_neg _ (by simp [hoi]),
            List.find?_cons_of_neg _ (by simp [hoi])]
          exact ih

theorem lookupOp_update_self (q : List PendingOp) (j rc : Nat) :
    lookupOp (updatePendingOperationRetryCount q j rc) j =
      (lookupOp q j).map (fun o => { o with retryCount := rc }) := by
  induction q with
  | nil => rfl
  | cons o rest ih =>
      by_cases ho : o.id = j
      · simp only [updatePendingOperationRetryCount, lookupOp] at *
        rw [List.map_cons, if_pos (by simp [ho]),
          List.find?_cons_of_pos _ (by simp [ho]),
          List.find?_cons_of_pos _ (by simp [ho])]
        rfl
      · simp only [updatePendingOperationRetryCount, lookupOp] at *
        rw [List.map_cons, if_neg (by simp [ho]),
          List.find?_cons_of_neg _ (by simp [ho]),
          List.find?_cons_of_neg _ (by simp [ho])]
        exact ih

theorem syncStep_queue_ne (net : PendingOp → Option String)
    (acc : DrainOutcome) (op : PendingOp) (i : Nat) (h : op.id ≠ i) :
    lookupOp (syncStep net acc op).queue i = lookupOp acc.queue i := by
  rcases hnet : net op with _ | msg
  · simp [syncStep, hnet, lookupOp_remove_ne _ _ _ h]
  · by_cases hrc : op.retryCount < MAX_RETRIES
    · simp [syncStep, hnet, hrc, lookupOp_update_ne _ _ _ _ h]
    · simp [syncStep, hnet, hrc, lookupOp_remove_ne _ _ _ h]

theorem foldl_syncStep_queue_untouched (net : PendingOp → Option String) :
    ∀ (ops : List PendingOp) (i : Nat) (acc : DrainOutcome),
      (∀ o ∈ ops, o.id ≠ i) →
      lookupOp (ops.foldl (syncStep net) acc).queue i = lookupOp acc.queue i
  | [], _, _, _ => rfl
  | op :: rest, i, acc, h => by
      rw [List.foldl_cons,
        foldl_syncStep_queue_untouched net rest i _
          (fun o ho => h o (List.mem_cons_of_mem _ ho))]
      exact syncStep_queue_ne net acc op i (h op (List.mem_cons_self _ _))

theorem syncStep_result_eq (net : PendingOp → Option String)
    (acc : DrainOutcome) (op : PendingOp) :
    ((syncStep net acc op).result.synced + (syncStep net acc op).result.failed
        = acc.result.synced + acc.result.failed + 1) ∧
    ((syncStep net acc op).result.errors.length + acc.result.failed
        = (syncStep net acc op).result.failed + acc.result.errors.length) ∧
    ((syncStep net acc op).attempts = acc.attempts ++ [op.id]) ∧
    ((syncStep net acc op).result.success = acc.result.success) := by
  rcases hnet : net op with _ | msg
  · refine ⟨by simp [syncStep, hnet]; omega, by simp [syncStep, hnet]; omega, by simp [syncStep, hnet], by simp [syncStep, hnet]⟩
  · by_cases hrc : op.retryCount < MAX_RETRIES
    · refine ⟨by simp [syncStep, hnet, hrc]; omega, by simp [syncStep, hnet, hrc]; omega, by simp [syncStep, hnet, hrc], by simp [syncStep, hnet, hrc]⟩
    · refine ⟨by simp [syncStep, hnet, hrc]; omega, by simp [syncStep, hnet, hrc]; omega, by simp [syncStep, hnet, hrc], by simp [syncStep, hnet, hrc]⟩

theorem foldl_syncStep_counts (net : PendingOp → Option String) :
    ∀ (ops : List PendingOp) (acc : DrainOutcome),
      ((ops.foldl (syncStep net) acc).result.synced
          + (ops.foldl (syncStep net) acc).result.failed
        = acc.result.synced + acc.result.failed + ops.length) ∧
      ((ops.foldl (syncStep net) acc).result.errors.length
          + acc.result.failed
        = (ops.foldl (syncStep net) acc).result.failed
          + acc.result.errors.length) ∧
      ((ops.foldl (syncStep net) acc).attempts
        = acc.attempts ++ ops.map (fun o => o.id)) ∧
      ((ops.foldl (syncStep net) acc).result.success = acc.result.success)
  | [], acc => ⟨rfl, by simp only [List.foldl_nil]; omega, by simp, rfl⟩
  | op :: rest, acc => by
      obtain ⟨ih1, ih2, ih3, ih4⟩ :=
        foldl_syncStep_counts net rest (syncStep net acc op)
      obtain ⟨s1, s2, s3, s4⟩ := syncStep_result_eq net acc op
      rw [List.foldl_cons]
      refine ⟨by simp only [List.length_cons]; omega, by omega, ?_,
        by rw [ih4, s4]⟩
      rw [ih3, s3]
      simp

theorem foldl_syncStep_errors_mono (net : PendingOp → Option String) :
    ∀ (ops : List PendingOp) (acc : DrainOutcome),
      ∃ t, (ops.foldl (syncStep net) acc).result.errors
          = acc.result.errors ++ t
  | [], acc => ⟨[], by simp⟩
  | op :: rest, acc => by
      obtain ⟨t, ht⟩ := foldl_syncStep_errors_mono net rest (syncStep net acc op)
      rw [List.foldl_cons, ht]
      rcases hnet : net op with _ | msg
      · exact ⟨t, by simp [syncStep, hnet]⟩
      · by_cases hrc : op.retryCount < MAX_RETRIES
        · exact ⟨⟨op.id, msg, decide (op.retryCount < MAX_RETRIES)⟩ :: t,
            by simp [syncStep, hnet, hrc]⟩
        · exact ⟨⟨op.id, msg, decide (op.retryCount < MAX_RETRIES)⟩ :: t,
            by simp [syncStep, hnet, hrc]⟩

theorem foldl_syncStep_delays_mono (net : PendingOp → Option String) :
    ∀ (ops : List PendingOp) (acc : DrainOutcome),
      ∃ t, (ops.foldl (syncStep net) acc).delays = acc.delays ++ t
  | [], acc => ⟨[], by simp⟩
  | op :: rest, acc => by
      obtain ⟨t, ht⟩ := foldl_syncStep_delays_mono net rest (syncStep net acc op)
      rw [List.foldl_cons, ht]
      rcases hnet : net op with _ | msg
      · exact ⟨t, by simp [syncStep, hnet]⟩
      · by_cases hrc : op.retryCount < MAX_RETRIES
        · exact ⟨RETRY_DELAY_MS * 2 ^ op.retryCount :: t,
            by simp [syncStep, hnet, hrc]⟩
        · exact ⟨t, by simp [syncStep, hnet, hrc]⟩

theorem drainFate (net : PendingOp → Option String)
    (q pre post : List PendingOp) (op : PendingOp) (msg : String)
    (hsnap : getPendingOperations q = pre ++ op :: post)
    (hpre : ∀ o ∈ pre, o.id ≠ op.id) (hpost : ∀ o ∈ post, o.id ≠ op.id)
    (hq : lookupOp q op.id = some op)
    (hnet : net op = some msg) :
    (op.retryCount < MAX_RETRIES →
        lookupOp (syncPendingOperations net q).queue op.id
            = some { op with retryCount := op.retryCount + 1 } ∧
        (⟨op.id, msg, true⟩ : SyncError)
            ∈ (syncPendingOperations net q).result.errors ∧
        (RETRY_DELAY_MS * 2 ^ op.retryCount)
            ∈ (syncPendingOperations net q).delays) ∧
    (MAX_RETRIES ≤ op.retryCount →
        lookupOp (syncPendingOperations net q).queue op.id = none ∧
        (⟨op.id, msg, false⟩ : SyncError)
            ∈ (syncPendingOperations net q).result.errors) ∧
    (syncPendingOperations net q).attempts.count op.id = 1 := by
  have hempty : ¬ ((getPendingOperations q).isEmpty = true) := by
    rw [hsnap]; cases pre <;> simp
  have hrun : syncPendingOperations net q =
      finalizeDrain ((pre ++ op :: post).foldl (syncStep net) (drainInit q)) := by
    unfold syncPendingOperations
    rw [if_neg hempty, hsnap]
  rw [hrun]
  rw [List.foldl_append, List.foldl_cons]
  have hA_queue :
      lookupOp (pre.foldl (syncStep net) (drainInit q)).queue op.id = some op := by
    rw [foldl_syncStep_queue_untouched net pre op.id _ hpre]
    exact hq
  obtain ⟨tE, htE⟩ := foldl_syncStep_errors_mono net post
    (syncStep net (pre.foldl (syncStep net) (drainInit q)) op)
  obtain ⟨tD, htD⟩ := foldl_syncStep_delays_mono net post
    (syncStep net (pre.foldl (syncStep net) (drainInit q)) op)
  have hqfin := foldl_syncStep_queue_untouched net post op.id
    (syncStep net (pre.foldl (syncStep net) (drainInit q)) op) hpost
  obtain ⟨hc1, hc2, hc3, hc4⟩ := foldl_syncStep_counts net (pre ++ op :: post)
    (drainInit q)
  refine ⟨?_, ?_, ?_⟩
  · intro hrc
    have hstep : syncStep net (pre.foldl (syncStep net) (drainInit q)) op =
        { queue := updatePendingOperationRetryCount
            (pre.foldl (syncStep net) (drainInit q)).queue op.id
            (op.retryCount + 1)
          result := { (pre.foldl (syncStep net) (drainInit q)).result with
            failed := (pre.foldl (syncStep net) (drainInit q)).result.failed + 1
            errors := (pre.foldl (syncStep net) (drainInit q)).result.errors ++
              [⟨op.id, msg, true⟩] }
          delays := (pre.foldl (syncStep net) (drainInit q)).delays ++
            [RETRY_DELAY_MS * 2 ^ op.retryCount]
          attempts := (pre.foldl (syncStep net) (drainInit q)).attempts ++
            [op.id] } := by
      simp [syncStep, hnet, hrc, decide_eq_true hrc]
    refine ⟨?_, ?_, ?_⟩
    · show lookupOp (finalizeDrain _).queue op.id = _
      rw [show (finalizeDrain (post.foldl (syncStep net)
          (syncStep net (pre.foldl (syncStep net) (drainInit q)) op))).queue =
          (post.foldl (syncStep net)
          (syncStep net (pre.foldl (syncStep net) (drainInit q)) op)).queue
          from rfl]
      rw [hqfin, hstep]
      show lookupOp (updatePendingOperationRetryCount _ op.id _) op.id = _
      rw [lookupOp_update_self, hA_queue]
      rfl
    · show _ ∈ (finalizeDrain _).result.errors
      rw [show (finalizeDrain (post.foldl (syncStep net)
          (syncStep net (pre.foldl (syncStep net) (drainInit q)) op))).result.errors =
          (post.foldl (syncStep net)
          (syncStep net (pre.foldl (syncStep net) (drainInit q)) op)).result.errors
          from rfl]
      rw [htE, hstep]
      exact List.mem_append_left _ (List.mem_append_right _ (by simp))
    · show _ ∈ (finalizeDrain _).delays
      rw [show (finalizeDrain (post.foldl (syncStep net)
          (syncStep net (pre.foldl (syncStep net) (drainInit q)) op))).delays =
          (post.foldl (syncStep net)
          (syncStep net (pre.foldl (syncStep net) (drainInit q)) op)).delays
          from rfl]
      rw [htD, hstep]
      exact List.mem_append_left _ (List.mem_append_right _ (by simp))
  · intro hrc
    have hrc2 : ¬ (op.retryCount < MAX_RETRIES) := by omega
    have hstep : syncStep net (pre.foldl (syncStep net) (drainInit q)) op =
        { queue := removePendingOperation
            (pre.foldl (syncStep net) (drainInit q)).queue op.id
          result := { (pre.foldl (syncStep net) (drainInit q)).result with
            failed := (pre.foldl (syncStep net) (drainInit q)).result.failed + 1
            errors := (pre.foldl (syncStep net) (drainInit q)).result.errors ++
              [⟨op.id, msg, false⟩] }
          delays := (pre.foldl (syncStep net) (drainInit q)).delays
          attempts := (pre.foldl (syncStep net) (drainInit q)).attempts ++
            [op.id] } := by
      simp [syncStep, hnet, hrc2, decide_eq_false hrc2]
    refine ⟨?_, ?_⟩
    · show lookupOp (finalizeDrain _).queue op.id = _
      rw [show (finalizeDrain (post.foldl (syncStep net)
          (syncStep net (pre.foldl (syncStep net) (drainInit q)) op))).queue =
          (post.foldl (syncStep net)
          (syncStep net (pre.foldl (syncStep net) (drainInit q)) op)).queue
          from rfl]
      rw [hqfin, hstep]
      exact lookupOp_remove_self _ _
    · show _ ∈ (finalizeDrain _).result.errors
      rw [show (finalizeDrain (post.foldl (syncStep net)
          (syncStep net (pre.foldl (syncStep net) (drainInit q)) op))).result.errors =
          (post.foldl (syncStep net)
          (syncStep net (pre.foldl (syncStep net) (drainInit q)) op)).result.errors
          from rfl]
      rw [htE, hstep]
      exact List.mem_append_left _ (List.mem_append_right _ (by simp))
  · show (List.foldl (syncStep net)
        (syncStep net (List.foldl (syncStep net) (drainInit q) pre) op)
        post).attempts.count op.id = 1
    rw [List.foldl_append, List.foldl_cons] at hc3
    rw [hc3]
    have hzero_pre : (pre.map (fun o => o.id)).count op.id = 0 := by
      rw [List.count_eq_zero]
      intro hmem
      obtain ⟨o, ho, hid⟩ := List.mem_map.mp hmem
      exact hpre o ho hid
    have hzero_post : (post.map (fun o => o.id)).count op.id = 0 := by
      rw [List.count_eq_zero]
      intro hmem
      obtain ⟨o, ho, hid⟩ := List.mem_map.mp hmem
      exact hpost o ho hid
    rw [show drainInit q = ⟨⟨true, 0, 0, []⟩, q, [], []⟩ from rfl]
    simp [List.count_append, hzero_pre, hzero_post]

theorem foldl_batchStep_spec :
    ∀ (ops : List SyncOperation) (r : BatchResults) (db : List Pass),
      ((ops.foldl batchStep (r, db)).1.processed
          = r.processed + (opOutcomes db ops).count true) ∧
      ((ops.foldl batchStep (r, db)).1.failed
          = r.failed + (opOutcomes db ops).count false) ∧
      ((ops.foldl batchStep (r, db)).1.errors.map Prod.fst
          = r.errors.map Prod.fst ++ failedIds db ops) ∧
      ((ops.foldl batchStep (r, db)).1.errors.length
          = r.errors.length + (opOutcomes db ops).count false) ∧
      ((ops.foldl batchStep (r, db)).1.success = r.success)
  | [], r, db => by simp [opOutcomes, failedIds]
  | op :: rest, r, db => by
      rcases hop : processOp db op with msg | db2
      · obtain ⟨ih1, ih2, ih3, ih4, ih5⟩ := foldl_batchStep_spec rest
          ({ r with failed := r.failed + 1, errors := r.errors ++ [(op.opId, msg)] }) db
        rw [List.foldl_cons]
        have hbs : batchStep (r, db) op =
            ({ r with
                failed := r.failed + 1
                errors := r.errors ++ [(op.opId, msg)] }, db) := by
          simp [batchStep, hop]
        rw [hbs]
        rw [show opOutcomes db (op :: rest) = false :: opOutcomes db rest from by
          simp [opOutcomes, hop]]
        rw [show failedIds db (op :: rest) = op.opId :: failedIds db rest from by
          simp [failedIds, hop]]
        refine ⟨?_, ?_, ?_, ?_, ?_⟩
        · rw [ih1]; simp [List.count_cons]
        · rw [ih2]; simp [List.count_cons]; omega
        · rw [ih3]; simp
        · rw [ih4]; simp [List.count_cons]; omega
        · exact ih5
      · obtain ⟨ih1, ih2, ih3, ih4, ih5⟩ := foldl_batchStep_spec rest
          ({ r with processed := r.processed + 1 }) db2
        rw [List.foldl_cons]
        rw [show batchStep (r, db) op =
            ({ r with processed := r.processed + 1 }, db2) from by
          simp [batchStep, hop]]
        rw [show opOutcomes db (op :: rest) = true :: opOutcomes db2 rest from by
          simp [opOutcomes, hop]]
        rw [show failedIds db (op :: rest) = failedIds db2 rest from by
          simp [failedIds, hop]]
        refine ⟨?_, ?_, ?_, ?_, ?_⟩
        · rw [ih1]; simp [List.count_cons]; omega
        · rw [ih2]; simp [List.count_cons]
        · rw [ih3]
        · rw [ih4]; simp [List.count_cons]
        · exact ih5

theorem count_set_replicate (n k : Nat) (hk : k < n) :
    ((List.replicate n true).set k false).count true = n - 1 ∧
    ((List.replicate n true).set k false).count false = 1 := by
  induction n generalizing k with
  | zero => omega
  | succ n ih =>
      cases k with
      | zero =>
          constructor <;>
            simp [List.replicate_succ, List.count_cons, List.count_replicate]
      | succ k =>
          obtain ⟨h1, h2⟩ := ih k (by omega)
          refine ⟨?_, ?_⟩
          · simp [List.replicate_succ, List.count_cons, h1, h2]; omega
          · simp [List.replicate_succ, List.count_cons, h1, h2]

theorem failedIds_all_true :
    ∀ (ops : List SyncOperation) (db : List Pass),
      opOutcomes db ops = List.replicate ops.length true →
      failedIds db ops = []
  | [], _, _ => rfl
  | op :: rest, db, h => by
      rcases hop : processOp db op with msg | db2
      · rw [show opOutcomes db (op :: rest) = false :: opOutcomes db rest from by
          simp [opOutcomes, hop], List.length_cons, List.replicate_succ] at h
        simp at h
      · rw [show opOutcomes db (op :: rest) = true :: opOutcomes db2 rest from by
          simp [opOutcomes, hop], List.length_cons, List.replicate_succ] at h
        simp only [List.cons.injEq, true_and] at h
        rw [show failedIds db (op :: rest) = failedIds db2 rest from by
          simp [failedIds, hop]]
        exact failedIds_all_true rest db2 h

theorem failedIds_single :
    ∀ (ops : List SyncOperation) (db : List Pass) (k : Nat) (hk : k < ops.length),
      opOutcomes db ops = (List.replicate ops.length true).set k false →
      failedIds db ops = [(ops.get ⟨k, hk⟩).opId]
  | [], _, k, hk, _ => absurd hk (by simp)
  | op :: rest, db, k, hk, h => by
      rcases hop : processOp db op with msg | db2
      · rw [show opOutcomes db (op :: rest) = false :: opOutcomes db rest from by
          simp [opOutcomes, hop], List.length_cons, List.replicate_succ] at h
        cases k with
        | zero =>
            rw [List.set_cons_zero] at h
            have htail : opOutcomes db rest = List.replicate rest.length true := by
              simpa using h
            rw [show failedIds db (op :: rest) = op.opId :: failedIds db rest
              from by simp [failedIds, hop]]
            rw [failedIds_all_true rest db htail]
            rfl
        | succ k =>
            rw [List.set_cons_succ] at h
            simp at h
      · rw [show opOutcomes db (op :: rest) = true :: opOutcomes db2 rest from by
          simp [opOutcomes, hop], List.length_cons, List.replicate_succ] at h
        cases k with
        | zero =>
            rw [List.set_cons_zero] at h
            simp at h
        | succ k =>
            rw [List.set_cons_succ] at h
            have htail : opOutcomes db2 rest
                = (List.replicate rest.length true).set k false := by
              simpa using h
            have hk2 : k < rest.length := by
              rw [List.length_cons] at hk; omega
            rw [show failedIds db (op :: rest) = failedIds db2 rest from by
              simp [failedIds, hop]]
            rw [failedIds_single rest db2 k hk2 htail]
            rfl

/-- C1: for every update-pass or update-status operation reconciled by
the server handler against an existing pass, the operation is applied
if and only if its `createdAt` is at least the record's current
`updatedAt` (equal timestamps apply); on apply the payload fields are
written onto the record and its `updatedAt` is set to the operation's
`createdAt`; on skip the store is left unchanged and the outcome is
reported as success (`Except.ok` with the untouched collection). -/
theorem C1_timestamp_conflict_resolution
    (db : List Pass) (op : UpdatePassOp) (sop : UpdateStatusOp) (p q : Pass)
    (hp : findPass db op.passId = some p)
    (hq : findPass db sop.passId = some q) :
    (op.createdAt < p.updatedAt → processUpdatePass db op = Except.ok db) ∧
    (p.updatedAt ≤ op.createdAt →
      ∃ db2, processUpdatePass db op = Except.ok db2 ∧
        ∃ p2, findPass db2 op.passId = some p2 ∧
          p2.name = setIfPresent op.payload.name p.name ∧
          p2.mobile = setIfPresent op.payload.mobile p.mobile ∧
          p2.city = setIfPresent op.payload.city p.city ∧
          p2.age = setIfPresent op.payload.age p.age ∧
          p2.updatedAt = op.createdAt ∧
          p2.passId = p.passId ∧ p2.status = p.status ∧
          p2.createdAt = p.createdAt ∧ p2.usedAt = p.usedAt) ∧
    (sop.createdAt < q.updatedAt →
      processUpdateStatus db sop = Except.ok db) ∧
    (q.updatedAt ≤ sop.createdAt →
      ∃ db2, processUpdateStatus db sop = Except.ok db2 ∧
        ∃ q2, findPass db2 sop.passId = some q2 ∧
          q2.status = sop.status ∧
          q2.updatedAt = sop.createdAt ∧
          q2.usedAt = (if sop.status = Status.used
            then some sop.createdAt else none) ∧
          q2.passId = q.passId ∧ q2.name = q.name ∧
          q2.mobile = q.mobile ∧ q2.city = q.city ∧ q2.age = q.age ∧
          q2.createdAt = q.createdAt) := by
  refine ⟨?_, ?_, ?_, ?_⟩
  · intro h
    simp only [processUpdatePass, hp]
    rw [if_pos h]
  · intro h
    simp only [processUpdatePass, hp]
    rw [if_neg (by omega : ¬ p.updatedAt > op.createdAt)]
    refine ⟨_, rfl, ?_⟩
    rw [findPass_updateFirst db op.passId
      (fun x => applyVisitorUpdate x op.payload op.createdAt) (fun x => rfl), hp]
    exact ⟨_, rfl, rfl, rfl, rfl, rfl, rfl, rfl, rfl, rfl, rfl⟩
  · intro h
    simp only [processUpdateStatus, hq]
    rw [if_pos h]
  · intro h
    simp only [processUpdateStatus, hq]
    rw [if_neg (by omega : ¬ q.updatedAt > sop.createdAt)]
    refine ⟨_, rfl, ?_⟩
    rw [findPass_updateFirst db sop.passId
      (fun x => applyStatusUpdate x sop.status sop.createdAt) (fun x => rfl), hq]
    exact ⟨_, rfl, rfl, rfl, rfl, rfl, rfl, rfl, rfl, rfl, rfl⟩

/-- Witness for C1 at a concrete store and concrete operations. -/
theorem C1_timestamp_conflict_resolution_witness :
    findPass [fxPlainPass] fxUpdOp.passId = some fxPlainPass ∧
    findPass [fxPlainPass] fxStatOp.passId = some fxPlainPass ∧
    ((fxUpdOp.createdAt < fxPlainPass.updatedAt →
        processUpdatePass [fxPlainPass] fxUpdOp = Except.ok [fxPlainPass]) ∧
      (fxPlainPass.updatedAt ≤ fxUpdOp.createdAt →
        ∃ db2, processUpdatePass [fxPlainPass] fxUpdOp = Except.ok db2 ∧
          ∃ p2, findPass db2 fxUpdOp.passId = some p2 ∧
            p2.name = setIfPresent fxUpdOp.payload.name fxPlainPass.name ∧
            p2.mobile
              = setIfPresent fxUpdOp.payload.mobile fxPlainPass.mobile ∧
            p2.city = setIfPresent fxUpdOp.payload.city fxPlainPass.city ∧
            p2.age = setIfPresent fxUpdOp.payload.age fxPlainPass.age ∧
            p2.updatedAt = fxUpdOp.createdAt ∧
            p2.passId = fxPlainPass.passId ∧ p2.status = fxPlainPass.status ∧
            p2.createdAt = fxPlainPass.createdAt ∧
            p2.usedAt = fxPlainPass.usedAt) ∧
      (fxStatOp.createdAt < fxPlainPass.updatedAt →
        processUpdateStatus [fxPlainPass] fxStatOp = Except.ok [fxPlainPass]) ∧
      (fxPlainPass.updatedAt ≤ fxStatOp.createdAt →
        ∃ db2, processUpdateStatus [fxPlainPass] fxStatOp = Except.ok db2 ∧
          ∃ q2, findPass db2 fxStatOp.passId = some q2 ∧
            q2.status = fxStatOp.status ∧
            q2.updatedAt = fxStatOp.createdAt ∧
            q2.usedAt = (if fxStatOp.status = Status.used
              then some fxStatOp.createdAt else none) ∧
            q2.passId = fxPlainPass.passId ∧ q2.name = fxPlainPass.name ∧
            q2.mobile = fxPlainPass.mobile ∧ q2.city = fxPlainPass.city ∧
            q2.age = fxPlainPass.age ∧
            q2.createdAt = fxPlainPass.createdAt)) :=
  ⟨rfl, rfl,
    C1_timestamp_conflict_resolution [fxPlainPass] fxUpdOp fxStatOp
      fxPlainPass fxPlainPass rfl rfl⟩

/-- C2 evaluated at the failing input: the pass `fxUsedPass` is already
`used` (checked in at time 10), yet the server handler applies the
later duplicate `update-status → used` operation `fxDupOp` instead of
rejecting it: the outcome is an ordinary success (no distinct conflict
signal) and the pass's `usedAt` is overwritten from `some 10` to
`some 20`.  This contradicts the claim (and Requirement 11.4 of the
repository's requirements document: an already-used pass must not
accept a duplicate check-in). -/
theorem C2_duplicate_status_is_applied :
    fxUsedPass.status = Status.used ∧
    fxDupOp.status = Status.used ∧
    fxUsedPass.updatedAt ≤ fxDupOp.createdAt ∧
    processUpdateStatus [fxUsedPass] fxDupOp =
      Except.ok [{ fxUsedPass with updatedAt := 20, usedAt := some 20 }] ∧
    ({ fxUsedPass with updatedAt := 20, usedAt := some 20 } : Pass).usedAt
      ≠ fxUsedPass.usedAt :=
  ⟨rfl, rfl, by decide, rfl, by decide⟩

theorem putUpdatePass_ok (db : List Pass) (now : Nat) (req : UpdateRequest)
    (p : Pass) (hpid : req.passId ≠ "")
    (hfind : findPass db req.passId = some p) :
    putUpdatePass db now req =
      (PutResponse.ok (passView (putApply req now p)),
       updateFirst db req.passId (putApply req now)) ∧
    findPass (updateFirst db req.passId (putApply req now)) req.passId
      = some (putApply req now p) := by
  have hfind2 : findPass (updateFirst db req.passId (putApply req now))
      req.passId = some (putApply req now p) := by
    rw [findPass_updateFirst db req.passId (putApply req now)
      (fun x => rfl), hfind]
    rfl
  refine ⟨?_, hfind2⟩
  unfold putUpdatePass
  rw [if_neg hpid, hfind, hfind2]

theorem putUpdatePass_notFound (db : List Pass) (now : Nat)
    (req : UpdateRequest) (hpid : req.passId ≠ "")
    (hnone : findPass db req.passId = none) :
    putUpdatePass db now req = (PutResponse.notFound "Pass not found", db) := by
  unfold putUpdatePass
  rw [if_neg hpid, hnone]

theorem syncUpdatePassRequest_passId (op : PendingOp) :
    (syncUpdatePassRequest op).passId = op.passId := by
  cases hop : op.payload <;> simp [syncUpdatePassRequest, hop]

theorem updatePassNet_notFound (db : List Pass) (now : Nat) (op : PendingOp)
    (hpid : op.passId ≠ "") (hnone : findPass db op.passId = none) :
    updatePassNet db now op = some "Pass not found" := by
  unfold updatePassNet
  rw [putUpdatePass_notFound db now (syncUpdatePassRequest op)
    (by rw [syncUpdatePassRequest_passId]; exact hpid)
    (by rw [syncUpdatePassRequest_passId]; exact hnone)]

/-- C6: for every queue state, `getPendingOperations` (listPending)
returns all pending operations — a permutation of the stored queue —
sorted ascending by `createdAt` regardless of insertion order, with
equal timestamps ordered by the enqueue sequence number `id`
(the ordering `opKeyLE`). -/
theorem C6_listPending_chronological (q : List PendingOp) :
    (getPendingOperations q).Perm q ∧
    List.Sorted opKeyLE (getPendingOperations q) ∧
    List.Pairwise (fun a b => a.createdAt ≤ b.createdAt)
      (getPendingOperations q) := by
  refine ⟨List.perm_insertionSort opKeyLE q,
    List.sorted_insertionSort opKeyLE q, ?_⟩
  exact List.Pairwise.imp
    (fun h => by unfold opKeyLE at h; omega)
    (List.sorted_insertionSort opKeyLE q)

/-- C8: a click on the manual sync trigger while the device is offline
fails fast with the exact message "Cannot sync while offline" and
performs no network dispatch (the attempts trace is empty). -/
theorem C8_manual_sync_offline_fail_fast (net : PendingOp → Option String)
    (q : List PendingOp) :
    handleManualSync net true q =
      (ManualSyncOutcome.message "Cannot sync while offline", []) := rfl

/-- C9: every drain of `syncPendingOperations` returns a `SyncResult`
with `synced + failed` equal to the number of pending operations read
at the start, exactly one error entry per failed operation, and
`success` true iff `failed = 0`. -/
theorem C9_syncresult_invariants (net : PendingOp → Option String)
    (q : List PendingOp) :
    (syncPendingOperations net q).result.synced
        + (syncPendingOperations net q).result.failed = q.length ∧
    (syncPendingOperations net q).result.errors.length
        = (syncPendingOperations net q).result.failed ∧
    ((syncPendingOperations net q).result.success = true
      ↔ (syncPendingOperations net q).result.failed = 0) := by
  have hlen : (getPendingOperations q).length = q.length :=
    (List.perm_insertionSort opKeyLE q).length_eq
  unfold syncPendingOperations
  by_cases hemp : (getPendingOperations q).isEmpty = true
  · rw [if_pos hemp]
    have h0 : getPendingOperations q = [] := List.isEmpty_iff.mp hemp
    have hq0 : q.length = 0 := by rw [← hlen, h0]; rfl
    refine ⟨by simp [drainInit, hq0], by simp [drainInit], by simp [drainInit]⟩
  · rw [if_neg hemp]
    obtain ⟨hc1, hc2, hc3, hc4⟩ :=
      foldl_syncStep_counts net (getPendingOperations q) (drainInit q)
    have e1 : (drainInit q).result.synced = 0 := rfl
    have e2 : (drainInit q).result.failed = 0 := rfl
    have e3 : (drainInit q).result.errors.length = 0 := rfl
    refine ⟨?_, ?_, ?_⟩
    · show (List.foldl (syncStep net) (drainInit q)
          (getPendingOperations q)).result.synced
        + (List.foldl (syncStep net) (drainInit q)
          (getPendingOperations q)).result.failed = q.length
      omega
    · show (List.foldl (syncStep net) (drainInit q)
          (getPendingOperations q)).result.errors.length
        = (List.foldl (syncStep net) (drainInit q)
          (getPendingOperations q)).result.failed
      omega
    · show decide ((List.foldl (syncStep net) (drainInit q)
          (getPendingOperations q)).result.failed = 0) = true
        ↔ (List.foldl (syncStep net) (drainInit q)
          (getPendingOperations q)).result.failed = 0
      exact decide_eq_true_iff

/-- C10: a PUT to /api/passes/update for an existing pass overwrites
all four visitor fields unconditionally with the request's values — an
absent field (`none`) erases the stored value — while `passId`,
`status`, `createdAt` and `usedAt` are untouched (`updatedAt` is set to
the server clock `now`). -/
theorem C10_put_overwrites_visitor_fields (db : List Pass) (now : Nat)
    (req : UpdateRequest) (p : Pass)
    (hpid : req.passId ≠ "") (hfind : findPass db req.passId = some p) :
    ∃ db2 p2,
      putUpdatePass db now req = (PutResponse.ok (passView p2), db2) ∧
      findPass db2 req.passId = some p2 ∧
      p2.name = req.name ∧ p2.mobile = req.mobile ∧
      p2.city = req.city ∧ p2.age = req.age ∧
      p2.updatedAt = now ∧
      p2.passId = p.passId ∧ p2.status = p.status ∧
      p2.createdAt = p.createdAt ∧ p2.usedAt = p.usedAt := by
  obtain ⟨hput, hfind2⟩ := putUpdatePass_ok db now req p hpid hfind
  exact ⟨_, _, hput, hfind2, rfl, rfl, rfl, rfl, rfl, rfl, rfl, rfl, rfl⟩

/-- Witness for C10: the stored name "Keep" of `fxKeepPass` is erased
by the partial request `fxPartialReq`, which carries only `mobile`. -/
theorem C10_put_overwrites_visitor_fields_witness :
    fxPartialReq.passId ≠ "" ∧
    findPass [fxKeepPass] fxPartialReq.passId = some fxKeepPass ∧
    (∃ db2 p2,
      putUpdatePass [fxKeepPass] 99 fxPartialReq
          = (PutResponse.ok (passView p2), db2) ∧
      findPass db2 fxPartialReq.passId = some p2 ∧
      p2.name = fxPartialReq.name ∧ p2.mobile = fxPartialReq.mobile ∧
      p2.city = fxPartialReq.city ∧ p2.age = fxPartialReq.age ∧
      p2.updatedAt = 99 ∧
      p2.passId = fxKeepPass.passId ∧ p2.status = fxKeepPass.status ∧
      p2.createdAt = fxKeepPass.createdAt ∧ p2.usedAt = fxKeepPass.usedAt) :=
  ⟨by decide, rfl,
    C10_put_overwrites_visitor_fields [fxKeepPass] 99 fxPartialReq fxKeepPass
      (by decide) rfl⟩

/-- C3 counterexample: the server record `fxStalePass` (updatedAt 100)
is strictly newer than the queued operation `fxStaleOp` (createdAt 50),
so a conflict resolver would skip; yet dispatching the operation
through `syncUpdatePass` to PUT /api/passes/update mutates the record
(name becomes "New", updatedAt the server clock 200).  The receiving
endpoint runs no conflict resolution, refuting the claim as stated. -/
theorem C3_counterexample_stale_update_applied :
    fxStalePass.updatedAt > fxStaleOp.createdAt ∧
    (putUpdatePass [fxStalePass] 200 (syncUpdatePassRequest fxStaleOp)).2 =
      [{ fxStalePass with name := some "New", updatedAt := 200 }] ∧
    ({ fxStalePass with name := some "New", updatedAt := 200 } : Pass)
      ≠ fxStalePass :=
  ⟨by decide, rfl, by decide⟩

/-- C3 amended: for each queued update-pass operation the sync engine
dispatches `{ passId, ...payload }` to PUT /api/passes/update — the
request carries the passId and the payload's visitor fields but not
the operation's `createdAt` (the request is invariant under changing
`createdAt`); the endpoint locates the record by passId (404 if
absent) and, with no conflict resolution, unconditionally overwrites
the visitor fields, sets `updatedAt` to the server's clock, persists,
and returns the updated record. -/
theorem C3_amended_dispatch_without_conflict_resolution
    (db : List Pass) (now : Nat) (op : PendingOp)
    (f : VisitorFields) (p : Pass)
    (hpl : op.payload = OpPayload.visitor f)
    (hfind : findPass db op.passId = some p)
    (hpid : op.passId ≠ "") :
    (∀ t : Nat, syncUpdatePassRequest { op with createdAt := t }
        = syncUpdatePassRequest op) ∧
    (syncUpdatePassRequest op
        = ⟨op.passId, f.name, f.mobile, f.city, f.age⟩) ∧
    (∃ p2, putUpdatePass db now (syncUpdatePassRequest op)
        = (PutResponse.ok (passView p2),
           updateFirst db op.passId
             (putApply (syncUpdatePassRequest op) now)) ∧
      p2.name = f.name ∧ p2.mobile = f.mobile ∧ p2.city = f.city ∧
      p2.age = f.age ∧ p2.updatedAt = now ∧ p2.status = p.status ∧
      p2.passId = p.passId ∧ p2.createdAt = p.createdAt ∧
      p2.usedAt = p.usedAt) ∧
    (∀ (db3 : List Pass) (req : UpdateRequest), req.passId ≠ "" →
      findPass db3 req.passId = none →
      putUpdatePass db3 now req
        = (PutResponse.notFound "Pass not found", db3)) := by
  have hreq : syncUpdatePassRequest op
      = ⟨op.passId, f.name, f.mobile, f.city, f.age⟩ := by
    simp [syncUpdatePassRequest, hpl]
  refine ⟨?_, hreq, ?_, ?_⟩
  · intro t
    cases hop : op.payload <;> simp [syncUpdatePassRequest, hop]
  · rw [hreq]
    obtain ⟨hput, _⟩ := putUpdatePass_ok db now
      ⟨op.passId, f.name, f.mobile, f.city, f.age⟩ p hpid hfind
    exact ⟨_, hput, rfl, rfl, rfl, rfl, rfl, rfl, rfl, rfl, rfl⟩
  · intro db3 req hr hnone
    exact putUpdatePass_notFound db3 now req hr hnone

/-- Witness for the amended C3, at the stale fixture: the operation is
older than the server record, and the endpoint still applies it. -/
theorem C3_amended_dispatch_without_conflict_resolution_witness :
    fxStaleOp.payload
        = OpPayload.visitor ⟨some "New", none, none, none⟩ ∧
    findPass [fxStalePass] fxStaleOp.passId = some fxStalePass ∧
    fxStaleOp.passId ≠ "" ∧
    ((∀ t : Nat, syncUpdatePassRequest { fxStaleOp with createdAt := t }
        = syncUpdatePassRequest fxStaleOp) ∧
      (syncUpdatePassRequest fxStaleOp
        = ⟨fxStaleOp.passId, some "New", none, none, none⟩) ∧
      (∃ p2, putUpdatePass [fxStalePass] 200 (syncUpdatePassRequest fxStaleOp)
          = (PutResponse.ok (passView p2),
             updateFirst [fxStalePass] fxStaleOp.passId
               (putApply (syncUpdatePassRequest fxStaleOp) 200)) ∧
        p2.name = some "New" ∧ p2.mobile = none ∧ p2.city = none ∧
        p2.age = none ∧ p2.updatedAt = 200 ∧
        p2.status = fxStalePass.status ∧
        p2.passId = fxStalePass.passId ∧
        p2.createdAt = fxStalePass.createdAt ∧
        p2.usedAt = fxStalePass.usedAt) ∧
      (∀ (db3 : List Pass) (req : UpdateRequest), req.passId ≠ "" →
        findPass db3 req.passId = none →
        putUpdatePass db3 200 req
          = (PutResponse.notFound "Pass not found", db3))) :=
  ⟨rfl, rfl, by decide,
    C3_amended_dispatch_without_conflict_resolution [fxStalePass] 200
      fxStaleOp ⟨some "New", none, none, none⟩ fxStalePass rfl rfl
      (by decide)⟩

/-- C4 counterexample: with a network that always fails, the operation
`fxRetryOp` (retryCount 0) has failed retryably on 3 consecutive drains
and is still in the queue with retryCount 3 — not removed — and the
next (4th) drain dispatches it again (its id appears in that drain's
attempts trace), only then recording a non-retryable error and
removing it.  This refutes "removed after 3 consecutive retryable
failures, a 4th attempt never occurs". -/
theorem C4_counterexample_fourth_attempt_occurs :
    iterateDrain fxNetFail [fxRetryOp] 3
        = [{ fxRetryOp with retryCount := 3 }] ∧
    (syncPendingOperations fxNetFail
        (iterateDrain fxNetFail [fxRetryOp] 3)).attempts = [fxRetryOp.id] ∧
    (syncPendingOperations fxNetFail
        (iterateDrain fxNetFail [fxRetryOp] 3)).result.errors =
      [⟨fxRetryOp.id, "Network error", false⟩] ∧
    (syncPendingOperations fxNetFail
        (iterateDrain fxNetFail [fxRetryOp] 3)).queue = [] :=
  ⟨rfl, rfl, rfl, rfl⟩

/-- C4 amended: a failing operation is dispatched exactly once per
drain.  While its stored `retryCount` is below MAX_RETRIES (3), each
failure increments the stored retryCount, records a retryable error,
and waits a backoff delay of `RETRY_DELAY_MS * 2 ^ retryCount`; the
operation remains queued for the next sync invocation.  Once
`retryCount` has reached 3 (its 4th failed attempt), the failure is
recorded as non-retryable and the operation is removed from the queue
and surfaced in `SyncResult.errors`. -/
theorem C4_amended_retry_lifecycle (net : PendingOp → Option String)
    (q pre post : List PendingOp) (op : PendingOp) (msg : String)
    (hsnap : getPendingOperations q = pre ++ op :: post)
    (hpre : ∀ o ∈ pre, o.id ≠ op.id) (hpost : ∀ o ∈ post, o.id ≠ op.id)
    (hq : lookupOp q op.id = some op)
    (hnet : net op = some msg) :
    (op.retryCount < MAX_RETRIES →
        lookupOp (syncPendingOperations net q).queue op.id
            = some { op with retryCount := op.retryCount + 1 } ∧
        (⟨op.id, msg, true⟩ : SyncError)
            ∈ (syncPendingOperations net q).result.errors ∧
        (RETRY_DELAY_MS * 2 ^ op.retryCount)
            ∈ (syncPendingOperations net q).delays) ∧
    (MAX_RETRIES ≤ op.retryCount →
        lookupOp (syncPendingOperations net q).queue op.id = none ∧
        (⟨op.id, msg, false⟩ : SyncError)
            ∈ (syncPendingOperations net q).result.errors) ∧
    (syncPendingOperations net q).attempts.count op.id = 1 :=
  drainFate net q pre post op msg hsnap hpre hpost hq hnet

/-- Witness for the amended C4 at a singleton queue that always fails. -/
theorem C4_amended_retry_lifecycle_witness :
    getPendingOperations [fxRetryOp] = [] ++ fxRetryOp :: [] ∧
    (∀ o ∈ ([] : List PendingOp), o.id ≠ fxRetryOp.id) ∧
    lookupOp [fxRetryOp] fxRetryOp.id = some fxRetryOp ∧
    fxNetFail fxRetryOp = some "Network error" ∧
    ((fxRetryOp.retryCount < MAX_RETRIES →
        lookupOp (syncPendingOperations fxNetFail [fxRetryOp]).queue
            fxRetryOp.id
            = some { fxRetryOp with retryCount := fxRetryOp.retryCount + 1 } ∧
        (⟨fxRetryOp.id, "Network error", true⟩ : SyncError)
            ∈ (syncPendingOperations fxNetFail [fxRetryOp]).result.errors ∧
        (RETRY_DELAY_MS * 2 ^ fxRetryOp.retryCount)
            ∈ (syncPendingOperations fxNetFail [fxRetryOp]).delays) ∧
      (MAX_RETRIES ≤ fxRetryOp.retryCount →
        lookupOp (syncPendingOperations fxNetFail [fxRetryOp]).queue
            fxRetryOp.id = none ∧
        (⟨fxRetryOp.id, "Network error", false⟩ : SyncError)
            ∈ (syncPendingOperations fxNetFail [fxRetryOp]).result.errors) ∧
      (syncPendingOperations fxNetFail [fxRetryOp]).attempts.count
          fxRetryOp.id = 1) :=
  ⟨rfl, by simp, rfl, rfl,
    C4_amended_retry_lifecycle fxNetFail [fxRetryOp] [] [] fxRetryOp
      "Network error" rfl (by simp) (by simp) rfl rfl⟩

/-- C7 counterexample: an operation whose target record does not exist
server-side (`fxOrphanOp` against an empty collection) is not dropped:
after one drain it is still queued with retryCount 1, a backoff delay
of 1000 ms was waited, and the error is recorded as retryable.  The
sync engine classifies retryability only by retryCount, so a
not-found failure enters the retry path, refuting the claim. -/
theorem C7_counterexample_not_found_is_retried :
    updatePassNet [] 0 fxOrphanOp = some "Pass not found" ∧
    (syncPendingOperations (updatePassNet [] 0) [fxOrphanOp]).queue =
      [{ fxOrphanOp with retryCount := 1 }] ∧
    (syncPendingOperations (updatePassNet [] 0) [fxOrphanOp]).delays
        = [1000] ∧
    (syncPendingOperations (updatePassNet [] 0) [fxOrphanOp]).result.errors =
      [⟨fxOrphanOp.id, "Pass not found", true⟩] :=
  ⟨rfl, rfl, rfl, rfl⟩

/-- C7 amended: a not-found failure takes the same generic retry path
as every other failure.  While the operation's retryCount is below
MAX_RETRIES it stays queued with retryCount incremented, the error is
recorded as retryable, and a backoff delay is waited; only once
retryCount has reached MAX_RETRIES is the operation dropped from the
queue and surfaced in the errors list. -/
theorem C7_amended_not_found_uses_generic_retry (db : List Pass) (now : Nat)
    (q pre post : List PendingOp) (op : PendingOp)
    (hsnap : getPendingOperations q = pre ++ op :: post)
    (hpre : ∀ o ∈ pre, o.id ≠ op.id) (hpost : ∀ o ∈ post, o.id ≠ op.id)
    (hq : lookupOp q op.id = some op)
    (hdb : findPass db op.passId = none) (hpid : op.passId ≠ "") :
    (op.retryCount < MAX_RETRIES →
        lookupOp (syncPendingOperations (updatePassNet db now) q).queue op.id
            = some { op with retryCount := op.retryCount + 1 } ∧
        (⟨op.id, "Pass not found", true⟩ : SyncError)
            ∈ (syncPendingOperations (updatePassNet db now) q).result.errors ∧
        (RETRY_DELAY_MS * 2 ^ op.retryCount)
            ∈ (syncPendingOperations (updatePassNet db now) q).delays) ∧
    (MAX_RETRIES ≤ op.retryCount →
        lookupOp (syncPendingOperations (updatePassNet db now) q).queue
            op.id = none ∧
        (⟨op.id, "Pass not found", false⟩ : SyncError)
            ∈ (syncPendingOperations (updatePassNet db now) q).result.errors) := by
  obtain ⟨h1, h2, h3⟩ := drainFate (updatePassNet db now) q pre post op
    "Pass not found" hsnap hpre hpost hq
    (updatePassNet_notFound db now op hpid hdb)
  exact ⟨h1, h2⟩

/-- Witness for the amended C7 at the orphan fixture. -/
theorem C7_amended_not_found_uses_generic_retry_witness :
    getPendingOperations [fxOrphanOp] = [] ++ fxOrphanOp :: [] ∧
    lookupOp [fxOrphanOp] fxOrphanOp.id = some fxOrphanOp ∧
    findPass [] fxOrphanOp.passId = none ∧
    fxOrphanOp.passId ≠ "" ∧
    ((fxOrphanOp.retryCount < MAX_RETRIES →
        lookupOp (syncPendingOperations (updatePassNet [] 0)
            [fxOrphanOp]).queue fxOrphanOp.id
            = some { fxOrphanOp with
                retryCount := fxOrphanOp.retryCount + 1 } ∧
        (⟨fxOrphanOp.id, "Pass not found", true⟩ : SyncError)
            ∈ (syncPendingOperations (updatePassNet [] 0)
                [fxOrphanOp]).result.errors ∧
        (RETRY_DELAY_MS * 2 ^ fxOrphanOp.retryCount)
            ∈ (syncPendingOperations (updatePassNet [] 0)
                [fxOrphanOp]).delays) ∧
      (MAX_RETRIES ≤ fxOrphanOp.retryCount →
        lookupOp (syncPendingOperations (updatePassNet [] 0)
            [fxOrphanOp]).queue fxOrphanOp.id = none ∧
        (⟨fxOrphanOp.id, "Pass not found", false⟩ : SyncError)
            ∈ (syncPendingOperations (updatePassNet [] 0)
                [fxOrphanOp]).result.errors)) :=
  ⟨rfl, rfl, rfl, by decide,
    C7_amended_not_found_uses_generic_retry [] 0 [fxOrphanOp] [] []
      fxOrphanOp rfl (by simp) (by simp) rfl rfl (by decide)⟩

/-- C5: in a batch of N operations where exactly the k-th fails (e.g.
it targets a nonexistent record) and every other operation succeeds,
the N-1 others are processed, the k-th is reported in the errors list
under its operationId, and the response satisfies `processed = N - 1`,
`failed = 1`, and `success = (failed == 0)` (here false); one
operation's failure never aborts the others. -/
theorem C5_partial_batch_failure (db : List Pass) (ops : List SyncOperation)
    (k : Nat) (hk : k < ops.length)
    (hout : opOutcomes db ops = (List.replicate ops.length true).set k false) :
    (syncPOST db ops).1.processed = ops.length - 1 ∧
    (syncPOST db ops).1.failed = 1 ∧
    (syncPOST db ops).1.errors.map Prod.fst = [(ops.get ⟨k, hk⟩).opId] ∧
    (syncPOST db ops).1.success = false ∧
    ((syncPOST db ops).1.success = true ↔ (syncPOST db ops).1.failed = 0) := by
  obtain ⟨h1, h2⟩ := count_set_replicate ops.length k hk
  obtain ⟨f1, f2, f3, f4, f5⟩ := foldl_batchStep_spec ops ⟨true, 0, 0, []⟩ db
  have hids := failedIds_single ops db k hk hout
  have hfailed : (ops.foldl batchStep (⟨true, 0, 0, []⟩, db)).1.failed = 1 := by
    rw [f2, hout, h2]
  refine ⟨?_, ?_, ?_, ?_, ?_⟩
  · show (ops.foldl batchStep (⟨true, 0, 0, []⟩, db)).1.processed
        = ops.length - 1
    rw [f1, hout, h1]
    simp
  · exact hfailed
  · show ((ops.foldl batchStep (⟨true, 0, 0, []⟩, db)).1.errors.map
        Prod.fst) = [(ops.get ⟨k, hk⟩).opId]
    rw [f3, hids]
    rfl
  · show decide ((ops.foldl batchStep (⟨true, 0, 0, []⟩, db)).1.failed = 0)
        = false
    rw [hfailed]
    rfl
  · show decide ((ops.foldl batchStep (⟨true, 0, 0, []⟩, db)).1.failed = 0)
          = true
        ↔ (ops.foldl batchStep (⟨true, 0, 0, []⟩, db)).1.failed = 0
    exact decide_eq_true_iff

/-- Witness for C5: a three-operation batch against a store holding
only `fxPlainPass`; the middle operation targets the nonexistent pass
VIS-0404 while the other two succeed, giving processed 2, failed 1. -/
theorem C5_partial_batch_failure_witness :
    1 < fxBatch.length ∧
    opOutcomes [fxPlainPass] fxBatch
        = (List.replicate fxBatch.length true).set 1 false ∧
    ((syncPOST [fxPlainPass] fxBatch).1.processed = fxBatch.length - 1 ∧
      (syncPOST [fxPlainPass] fxBatch).1.failed = 1 ∧
      (syncPOST [fxPlainPass] fxBatch).1.errors.map Prod.fst
          = [(fxBatch.get ⟨1, by decide⟩).opId] ∧
      (syncPOST [fxPlainPass] fxBatch).1.success = false ∧
      ((syncPOST [fxPlainPass] fxBatch).1.success = true
        ↔ (syncPOST [fxPlainPass] fxBatch).1.failed = 0)) :=
  ⟨by decide, rfl,
    C5_partial_batch_failure [fxPlainPass] fxBatch 1 (by decide) rfl⟩
